import Mathlib

/-!
Verification of the FAIR Monte Carlo simulation core
(`fair_monte_carlo.py`: `FAIRDistribution.sample`,
`FAIRMonteCarloSimulation.run_simulation`, `_calculate_statistics`).

Modelling choices:
* Python floats are modelled as real numbers (ℝ).  `np.log` / `np.sqrt` are
  modelled by `Real.log` / `Real.sqrt`, which agree with IEEE semantics on
  positive arguments; the IEEE behaviour of `np.log` on non-positive
  arguments (NaN / -inf instead of an exception) is modelled separately by
  `npLog` below, returning `none` for a non-real result.
* numpy's process-global pseudo-random source is modelled by an abstract
  oracle `NpRandom`: each scalar draw of a given distribution family is an
  unconstrained function of the distribution parameters and of the position
  in the underlying entropy stream.  Every scalar draw advances the stream
  position by one, so "number of random draws consumed" is observable as the
  difference of stream positions.
* Python exceptions are modelled by `Except String`; the string records the
  exception that the interpreter would raise at that point.
-/

/-- Model of the `FAIRDistribution` dataclass: a distribution kind tag plus
shape parameters.  `min_val` is the only required field; the remaining
fields default to `None` in the Python source, modelled by `Option ℝ`. -/
structure FAIRDistribution where
  dist_type : String
  min_val : ℝ
  mode_val : Option ℝ := none
  max_val : Option ℝ := none
  mean : Option ℝ := none
  std : Option ℝ := none

/-- Abstract model of numpy's global random source.  Each field gives the
scalar value produced by one draw of that primitive at a given position of
the entropy stream, as a function of the distribution parameters passed to
the numpy call.  `random` models `np.random.random` (uniform on [0,1)).

Each primitive is modelled as a total function, which is faithful only on
the parameter domain where the corresponding numpy call does not raise: in
particular `np.random.poisson` raises `ValueError("lam < 0")` on a
negative mean (and `np.random.beta` / `triangular` / `lognormal` have
analogous parameter-domain errors), while `poisson` here is total.
Theorems that assert completion of a computation therefore carry
hypotheses restricting them to the non-raising parameter domain — for the
engine, that every computed loss-event rate passed to the Poisson
primitive is non-negative. -/
structure NpRandom where
  beta : ℝ → ℝ → ℕ → ℝ
  lognormal : ℝ → ℝ → ℕ → ℝ
  uniform : ℝ → ℝ → ℕ → ℝ
  triangular : ℝ → ℝ → ℝ → ℕ → ℝ
  poisson : ℝ → ℕ → ℕ
  random : ℕ → ℝ

/-- Model of `self.results`: the four per-run output sequences stored by
`run_simulation`. -/
structure SimResults where
  annual_losses : List ℝ
  lef_samples : List ℝ
  actual_events : List ℕ
  tef_samples : List ℝ

/-- Model of the statistics dictionary built by `_calculate_statistics`.
The percentile keys `10th` … `99th` are rendered as fields `p10` … `p99`. -/
structure Statistics where
  ale_mean : ℝ
  ale_median : ℝ
  ale_std : ℝ
  ale_min : ℝ
  ale_max : ℝ
  p10 : ℝ
  p25 : ℝ
  p50 : ℝ
  p75 : ℝ
  p90 : ℝ
  p95 : ℝ
  p99 : ℝ
  lef_mean : ℝ
  lef_median : ℝ
  probability_of_loss : ℝ
  mean_loss_given_event : ℝ

/-- Model of IEEE `np.log` restricted to its real results: on a non-positive
argument `np.log` does not raise but silently produces NaN (negative input)
or `-inf` (zero input); both non-real outcomes are modelled as `none`. -/
noncomputable def npLog (x : ℝ) : Option ℝ :=
  if 0 < x then some (Real.log x) else none

/-- Ascending sort, as performed internally by `np.percentile`. -/
noncomputable def sortedOf (xs : List ℝ) : List ℝ :=
  List.insertionSort (· ≤ ·) xs

/-- Linear interpolation of a sorted sequence `ys` at virtual (fractional)
index `v`, exactly as numpy's default `linear` interpolation method:
with `i = ⌊v⌋`, the result is `ys[i] + (v - i) * (ys[i+1] - ys[i])`,
indices clipped to the last element. -/
noncomputable def interpAt (ys : List ℝ) (v : ℝ) : ℝ :=
  ys.getD (min (⌊v⌋).toNat (ys.length - 1)) 0 +
    (v - ((⌊v⌋).toNat : ℝ)) *
      (ys.getD (min ((⌊v⌋).toNat + 1) (ys.length - 1)) 0 -
        ys.getD (min (⌊v⌋).toNat (ys.length - 1)) 0)

/-- Model of `np.percentile(xs, q)` (default linear interpolation): sort,
then interpolate at virtual index `q/100 * (n - 1)`.  `np.median` equals
`np.percentile` at `q = 50`. -/
noncomputable def npPercentile (xs : List ℝ) (q : ℝ) : ℝ :=
  interpAt (sortedOf xs) (q / 100 * ((xs.length : ℝ) - 1))

/-- Model of `np.mean`: sum divided by length. -/
noncomputable def npMean (xs : List ℝ) : ℝ :=
  xs.sum / (xs.length : ℝ)

/-- Model of `np.std` (population standard deviation): square root of the
mean squared deviation from the mean. -/
noncomputable def npStd (xs : List ℝ) : ℝ :=
  Real.sqrt (npMean (xs.map (fun x => (x - npMean xs) ^ 2)))

/-- Model of `np.min` on a nonempty array (the empty case raises and is
handled at the call site in `calculateStatistics`). -/
def npMinList (xs : List ℝ) : ℝ :=
  match xs with
  | [] => 0
  | x :: rest => rest.foldl min x

/-- Model of `np.max` on a nonempty array. -/
def npMaxList (xs : List ℝ) : ℝ :=
  match xs with
  | [] => 0
  | x :: rest => rest.foldl max x

/-- Model of `FAIRDistribution.sample(size)` (src lines 30-70).  `pos` is
the current position of the global entropy stream; a successful call
returns the sampled values and the new stream position.

Faithfulness notes, by branch of the source:
* `pert`: the source first computes an (unused) PERT mean
  `mu = (min + 4*mode + max)/6`, which raises `TypeError` if `mode_val` or
  `max_val` is `None`; hence both fields are demanded before the
  `max == min` test.  When `max == min` it returns `size` copies of
  `min_val` without drawing; otherwise it draws `size` Beta(α,β) samples
  and rescales them affinely to [min, max].
* `lognormal`: if `mean` and `std` are both present, the moment-matching
  parameters are used; otherwise `mu = log(mode)`, `sigma =
  (log(max) - log(min))/4`, which demands `mode_val` and `max_val`
  (`np.log(None)` raises `TypeError`).  No branch raises for non-positive
  logarithm arguments (see `npLog` for the IEEE reading of that case).
* `uniform` / `triangular`: direct draws; absent required fields raise
  `TypeError` inside numpy.
* any other kind: `ValueError` naming the unsupported kind. -/
noncomputable def FAIRDistribution.sample (d : FAIRDistribution) (rng : NpRandom)
    (size : ℕ) (pos : ℕ) : Except String (List ℝ × ℕ) :=
  if d.dist_type = "pert" then
    match d.mode_val, d.max_val with
    | some mode, some mx =>
      if mx = d.min_val then
        .ok (List.replicate size d.min_val, pos)
      else
        .ok ((List.range size).map (fun i =>
          d.min_val +
            rng.beta (1 + 4 * (mode - d.min_val) / (mx - d.min_val))
              (1 + 4 * (mx - mode) / (mx - d.min_val)) (pos + i) *
            (mx - d.min_val)), pos + size)
    | _, _ => .error "TypeError: unsupported operand type for NoneType"
  else if d.dist_type = "lognormal" then
    match d.mean, d.std with
    | some m, some s =>
      .ok ((List.range size).map (fun i =>
        rng.lognormal (Real.log (m ^ 2 / Real.sqrt (s ^ 2 + m ^ 2)))
          (Real.sqrt (Real.log (1 + s ^ 2 / m ^ 2))) (pos + i)), pos + size)
    | _, _ =>
      match d.mode_val, d.max_val with
      | some mode, some mx =>
        .ok ((List.range size).map (fun i =>
          rng.lognormal (Real.log mode)
            ((Real.log mx - Real.log d.min_val) / 4) (pos + i)), pos + size)
      | _, _ => .error "TypeError: unsupported operand type for NoneType"
  else if d.dist_type = "uniform" then
    match d.max_val with
    | some mx =>
      .ok ((List.range size).map (fun i =>
        rng.uniform d.min_val mx (pos + i)), pos + size)
    | none => .error "TypeError: unsupported operand type for NoneType"
  else if d.dist_type = "triangular" then
    match d.mode_val, d.max_val with
    | some mode, some mx =>
      .ok ((List.range size).map (fun i =>
        rng.triangular d.min_val mode mx (pos + i)), pos + size)
    | _, _ => .error "TypeError: unsupported operand type for NoneType"
  else
    .error ("Unknown distribution type: " ++ d.dist_type)

/-- Model of `_calculate_statistics` (src lines 149-176).  On an empty loss
array the first exception raised while building the dictionary comes from
`np.min` (`np.mean`/`np.median`/`np.std` only emit NaN with a warning),
so the empty case is a `ValueError`. -/
noncomputable def calculateStatistics (annual_losses lef_samples : List ℝ) :
    Except String Statistics :=
  if annual_losses.isEmpty then
    .error "ValueError: zero-size array to reduction operation minimum which has no identity"
  else
    .ok
      { ale_mean := npMean annual_losses
        ale_median := npPercentile annual_losses 50
        ale_std := npStd annual_losses
        ale_min := npMinList annual_losses
        ale_max := npMaxList annual_losses
        p10 := npPercentile annual_losses 10
        p25 := npPercentile annual_losses 25
        p50 := npPercentile annual_losses 50
        p75 := npPercentile annual_losses 75
        p90 := npPercentile annual_losses 90
        p95 := npPercentile annual_losses 95
        p99 := npPercentile annual_losses 99
        lef_mean := npMean lef_samples
        lef_median := npPercentile lef_samples 50
        probability_of_loss :=
          ((annual_losses.filter (fun x => decide (0 < x))).length : ℝ) /
            (annual_losses.length : ℝ)
        mean_loss_given_event :=
          if 0 < (annual_losses.filter (fun x => decide (0 < x))).length then
            npMean (annual_losses.filter (fun x => decide (0 < x)))
          else 0 }

/-- Model of `np.where(has_secondary, secondary_samples, 0)` where
`has_secondary = np.random.random(k) < secondary_loss_prob` was drawn at
stream positions `p, p+1, …, p+k-1` (src lines 124-129). -/
noncomputable def secondaryWhere (rng : NpRandom) (sp : ℝ) (p : ℕ) (k : ℕ)
    (ss : List ℝ) : List ℝ :=
  List.zipWith (fun j x => if rng.random (p + j) < sp then x else 0)
    (List.range k) ss

/-- Model of one iteration of the per-run loss loop (src lines 116-134):
for a run with `k` realized events, draw `k` primary losses, then — when a
secondary distribution is configured with probability > 0 — draw the `k`
Bernoulli gates followed by `k` secondary losses and keep only the gated
ones.  Runs with `k = 0` are skipped (their annual loss stays 0). -/
noncomputable def runLoss (rng : NpRandom) (prim : FAIRDistribution)
    (sec : Option FAIRDistribution) (sp : ℝ) (k : ℕ) (pos : ℕ) :
    Except String (ℝ × ℕ) :=
  if 0 < k then
    match prim.sample rng k pos with
    | .error e => .error e
    | .ok (primary_losses, p1) =>
      match sec with
      | some sd =>
        if 0 < sp then
          match sd.sample rng k (p1 + k) with
          | .error e => .error e
          | .ok (secondary_samples, p2) =>
            .ok (primary_losses.sum +
              (secondaryWhere rng sp p1 k secondary_samples).sum, p2)
        else
          .ok (primary_losses.sum + 0, p1)
      | none => .ok (primary_losses.sum + 0, p1)
  else
    .ok (0, pos)

/-- Model of the whole `for i in range(self.n_simulations)` loop: fold
`runLoss` over the realized event counts, threading the stream position. -/
noncomputable def lossLoop (rng : NpRandom) (prim : FAIRDistribution)
    (sec : Option FAIRDistribution) (sp : ℝ) :
    List ℕ → ℕ → Except String (List ℝ × ℕ)
  | [], pos => .ok ([], pos)
  | k :: rest, pos =>
    match runLoss rng prim sec sp k pos with
    | .error e => .error e
    | .ok (loss, p1) =>
      match lossLoop rng prim sec sp rest p1 with
      | .error e => .error e
      | .ok (losses, p2) => .ok (loss :: losses, p2)

/-- Model of `run_simulation` (src lines 80-147): sample `n` TEF values,
scale by `vuln_prob` into per-run loss-event rates, draw one Poisson event
count per run with mean that run's rate, run the per-run loss loop, store
the four result arrays, and compute the statistics.  The Python method
returns the statistics dictionary and stores the arrays in `self.results`;
both observables are returned here, together with the final stream
position.

The Poisson draw of line 111 is modelled by the total `NpRandom.poisson`;
`np.random.poisson` itself raises `ValueError("lam < 0")` when some
computed rate is negative, so this model coincides with the source only
when every rate `tef_sample * vuln_prob` is non-negative — theorems that
assert completion of a run state that restriction as a hypothesis. -/
noncomputable def run_simulation (rng : NpRandom) (n : ℕ)
    (tef_dist : FAIRDistribution) (vuln_prob : ℝ)
    (primary_loss_dist : FAIRDistribution)
    (secondary_loss_dist : Option FAIRDistribution)
    (secondary_loss_prob : ℝ) (pos : ℕ) :
    Except String (SimResults × Statistics × ℕ) :=
  match tef_dist.sample rng n pos with
  | .error e => .error e
  | .ok (tef_samples, p1) =>
    let lef_samples := tef_samples.map (· * vuln_prob)
    let actual_events :=
      (List.range n).map (fun i => rng.poisson (lef_samples.getD i 0) (p1 + i))
    match lossLoop rng primary_loss_dist secondary_loss_dist
        secondary_loss_prob actual_events (p1 + n) with
    | .error e => .error e
    | .ok (annual_losses, p2) =>
      match calculateStatistics annual_losses lef_samples with
      | .error e => .error e
      | .ok stats =>
        .ok (⟨annual_losses, lef_samples, actual_events, tef_samples⟩, stats, p2)

/-- Well-formedness of a spec sufficient for `sample` to succeed: a known
distribution kind together with the fields that kind dereferences. -/
def sampleOk (d : FAIRDistribution) : Prop :=
  (d.dist_type = "pert" ∧ ∃ mo mx, d.mode_val = some mo ∧ d.max_val = some mx) ∨
  (d.dist_type = "lognormal" ∧
    ((∃ m s, d.mean = some m ∧ d.std = some s) ∨
      (∃ mo mx, d.mode_val = some mo ∧ d.max_val = some mx))) ∨
  (d.dist_type = "uniform" ∧ ∃ mx, d.max_val = some mx) ∨
  (d.dist_type = "triangular" ∧ ∃ mo mx, d.mode_val = some mo ∧ d.max_val = some mx)

/-- Random oracle whose every draw is 0; a legitimate instantiation used to
evaluate the model on concrete inputs. -/
def zeroRng : NpRandom :=
  { beta := fun _ _ _ => 0
    lognormal := fun _ _ _ => 0
    uniform := fun _ _ _ => 0
    triangular := fun _ _ _ _ => 0
    poisson := fun _ _ => 0
    random := fun _ => 0 }

/-- Random oracle for the degenerate-loss scenario: uniform draws return the
lower bound (exact for a zero-width range, and an attainable value
otherwise), and every Poisson draw realizes one event. -/
def cexRng : NpRandom :=
  { beta := fun _ _ _ => 0
    lognormal := fun _ _ _ => 0
    uniform := fun lo _ _ => lo
    triangular := fun _ _ _ _ => 0
    poisson := fun _ _ => 1
    random := fun _ => 0 }

/-- Uniform(0, 1) spec, used as a concrete well-formed TEF / loss spec. -/
def uniSpec : FAIRDistribution :=
  { dist_type := "uniform", min_val := 0, max_val := some 1 }

/-- Uniform(1, 1) spec: every TEF sample equals 1. -/
def tefOneSpec : FAIRDistribution :=
  { dist_type := "uniform", min_val := 1, max_val := some 1 }

/-- PERT(0, 0, 0) spec: a degenerate loss distribution whose every sample
is exactly 0 (the source returns `np.full(size, min_val)`). -/
def primZeroSpec : FAIRDistribution :=
  { dist_type := "pert", min_val := 0, mode_val := some 0, max_val := some 0 }

/-- PERT(1, 2, 3) spec. -/
def pertSpec : FAIRDistribution :=
  { dist_type := "pert", min_val := 1, mode_val := some 2, max_val := some 3 }

/-- PERT(5, 5, 5) spec (degenerate range). -/
def pertDegenerateSpec : FAIRDistribution :=
  { dist_type := "pert", min_val := 5, mode_val := some 5, max_val := some 5 }

/-- Lognormal spec parametrized by mean 5 and standard deviation 2. -/
def lnMeanStdSpec : FAIRDistribution :=
  { dist_type := "lognormal", min_val := 1, mode_val := some 2,
    max_val := some 3, mean := some 5, std := some 2 }

/-- Same lognormal mean/std as `lnMeanStdSpec` but a different
min/mode/max range. -/
def lnMeanStdSpec2 : FAIRDistribution :=
  { dist_type := "lognormal", min_val := 10, mode_val := some 20,
    max_val := some 30, mean := some 5, std := some 2 }

/-- Lognormal spec using the min/mode/max parametrization. -/
def lnRangeSpec : FAIRDistribution :=
  { dist_type := "lognormal", min_val := 1, mode_val := some 2, max_val := some 4 }

/-- Lognormal min/mode/max spec with a negative mode. -/
def lnBadSpec : FAIRDistribution :=
  { dist_type := "lognormal", min_val := 1, mode_val := some (-1), max_val := some 2 }

/-- Spec with an unsupported distribution kind. -/
def gammaSpec : FAIRDistribution :=
  { dist_type := "gamma", min_val := 0, max_val := some 1 }

/-- Statistics of the singleton result `annual = [0]`, `lef = [0]`. -/
def zeroStats : Statistics :=
  ⟨0, 0, 0, 0, 0, 0, 0, 0, 0, 0, 0, 0, 0, 0, 0, 0⟩

/-- Statistics of the singleton result `annual = [0]`, `lef = [1]`. -/
def cexStats : Statistics :=
  ⟨0, 0, 0, 0, 0, 0, 0, 0, 0, 0, 0, 0, 1, 1, 0, 0⟩

/-- A well-formed spec samples successfully, returns exactly `size` values,
and a request for 0 samples returns the empty list at the same stream
position. -/
theorem sample_ok_spec (d : FAIRDistribution) (rng : NpRandom) (size pos : ℕ)
    (h : sampleOk d) :
    ∃ l p', d.sample rng size pos = .ok (l, p') ∧ l.length = size ∧
      (size = 0 → l = [] ∧ p' = pos) := by
  rcases h with ⟨ht, mo, mx, hmo, hmx⟩ | ⟨ht, h⟩ | ⟨ht, mx, hmx⟩ | ⟨ht, mo, mx, hmo, hmx⟩
  · by_cases hdeg : mx = d.min_val
    · refine ⟨List.replicate size d.min_val, pos, ?_, by simp, by simp⟩
      simp [FAIRDistribution.sample, ht, hmo, hmx, hdeg]
    · simp only [FAIRDistribution.sample, ht, hmo, hmx, reduceIte, if_neg hdeg]
      exact ⟨_, _, rfl, by simp, by rintro rfl; simp⟩
  · rcases h with ⟨m, s, hm, hs⟩ | ⟨mo, mx, hmo, hmx⟩
    · simp only [FAIRDistribution.sample, ht, hm, hs, reduceIte]
      exact ⟨_, _, rfl, by simp, by rintro rfl; simp⟩
    · rcases hmean : d.mean with _ | m
      · simp only [FAIRDistribution.sample, ht, hmean, hmo, hmx, reduceIte]
        exact ⟨_, _, rfl, by simp, by rintro rfl; simp⟩
      · rcases hstd : d.std with _ | s
        · simp only [FAIRDistribution.sample, ht, hmean, hstd, hmo, hmx, reduceIte]
          exact ⟨_, _, rfl, by simp, by rintro rfl; simp⟩
        · simp only [FAIRDistribution.sample, ht, hmean, hstd, reduceIte]
          exact ⟨_, _, rfl, by simp, by rintro rfl; simp⟩
  · simp only [FAIRDistribution.sample, ht, hmx, reduceIte]
    exact ⟨_, _, rfl, by simp, by rintro rfl; simp⟩
  · simp only [FAIRDistribution.sample, ht, hmo, hmx, reduceIte]
    exact ⟨_, _, rfl, by simp, by rintro rfl; simp⟩

/-- Characterization of one iteration of the loss loop: a run with no
realized event contributes loss 0 and consumes no randomness; a run with
`k > 0` events sums `k` primary draws, plus — exactly when a secondary spec
with positive probability is configured — the Bernoulli-gated sum of `k`
secondary draws. -/
theorem runLoss_spec (rng : NpRandom) (prim : FAIRDistribution)
    (sec : Option FAIRDistribution) (sp : ℝ) (k pos : ℕ)
    (hprim : sampleOk prim) (hsec : ∀ sd ∈ sec, sampleOk sd) :
    ∃ loss p', runLoss rng prim sec sp k pos = .ok (loss, p') ∧
      (k = 0 → loss = 0 ∧ p' = pos) ∧
      (0 < k → ∃ ps p1, prim.sample rng k pos = .ok (ps, p1) ∧ ps.length = k ∧
        ((sec = none ∨ sp ≤ 0) → loss = ps.sum ∧ p' = p1) ∧
        (∀ sd, sec = some sd → 0 < sp →
          ∃ ss p2, sd.sample rng k (p1 + k) = .ok (ss, p2) ∧ ss.length = k ∧
            loss = ps.sum + (secondaryWhere rng sp p1 k ss).sum ∧ p' = p2)) := by
  rcases Nat.eq_zero_or_pos k with hk | hk
  · subst hk
    exact ⟨0, pos, by simp [runLoss], by simp, by simp⟩
  · obtain ⟨ps, p1, hps, hlen, -⟩ := sample_ok_spec prim rng k pos hprim
    rcases hsec' : sec with _ | sd
    · refine ⟨ps.sum + 0, p1, ?_, by omega, ?_⟩
      · simp [runLoss, hk, hps]
      · exact fun _ => ⟨ps, p1, hps, hlen, fun _ => ⟨by ring, rfl⟩, by simp⟩
    · by_cases hsp : 0 < sp
      · obtain ⟨ss, p2, hss, hsslen, -⟩ :=
          sample_ok_spec sd rng k (p1 + k) (hsec sd (by simp [hsec']))
        refine ⟨ps.sum + (secondaryWhere rng sp p1 k ss).sum, p2, ?_, by omega, ?_⟩
        · simp [runLoss, hk, hps, hsp, hss]
        · refine fun _ => ⟨ps, p1, hps, hlen, ?_, ?_⟩
          · rintro (h | h)
            · simp at h
            · exact absurd hsp (not_lt.mpr h)
          · rintro sd' hsd' -
            obtain rfl := Option.some.inj hsd'
            exact ⟨ss, p2, hss, hsslen, rfl, rfl⟩
      · refine ⟨ps.sum + 0, p1, ?_, by omega, ?_⟩
        · simp [runLoss, hk, hps, hsp]
        · refine fun _ => ⟨ps, p1, hps, hlen, fun _ => ⟨by ring, rfl⟩, ?_⟩
          rintro sd' - hsp'
          exact absurd hsp' hsp

/-- The per-run loop succeeds on well-formed specs, returns one loss per
event count, and every produced loss is the result of `runLoss` at that
run's event count (from some stream position).  In particular a run whose
event count is 0 has loss exactly 0. -/
theorem lossLoop_spec (rng : NpRandom) (prim : FAIRDistribution)
    (sec : Option FAIRDistribution) (sp : ℝ)
    (hprim : sampleOk prim) (hsec : ∀ sd ∈ sec, sampleOk sd) :
    ∀ (events : List ℕ) (pos : ℕ),
      ∃ losses p', lossLoop rng prim sec sp events pos = .ok (losses, p') ∧
        losses.length = events.length ∧
        ∀ i, i < events.length →
          ∃ q q', runLoss rng prim sec sp (events.getD i 0) q =
            .ok (losses.getD i 0, q') := by
  intro events
  induction events with
  | nil =>
    intro pos
    exact ⟨[], pos, by simp [lossLoop], by simp, by simp⟩
  | cons k rest ih =>
    intro pos
    obtain ⟨loss, p1, hrun, -, -⟩ :=
      runLoss_spec rng prim sec sp k pos hprim hsec
    obtain ⟨losses, p2, hloop, hlen, hall⟩ := ih p1
    refine ⟨loss :: losses, p2, ?_, by simp [hlen], ?_⟩
    · simp [lossLoop, hrun, hloop]
    · intro i hi
      cases i with
      | zero => exact ⟨pos, p1, by simpa using hrun⟩
      | succ j =>
        obtain ⟨q, q', hq⟩ := hall j (by simpa using hi)
        exact ⟨q, q', by simpa using hq⟩

/-- On a nonempty loss array `_calculate_statistics` succeeds, and its
fields are the modelled numpy reductions; stated as the record equation. -/
theorem calculateStatistics_ok (annual lef : List ℝ) (h : annual ≠ []) :
    calculateStatistics annual lef = .ok
      { ale_mean := npMean annual
        ale_median := npPercentile annual 50
        ale_std := npStd annual
        ale_min := npMinList annual
        ale_max := npMaxList annual
        p10 := npPercentile annual 10
        p25 := npPercentile annual 25
        p50 := npPercentile annual 50
        p75 := npPercentile annual 75
        p90 := npPercentile annual 90
        p95 := npPercentile annual 95
        p99 := npPercentile annual 99
        lef_mean := npMean lef
        lef_median := npPercentile lef 50
        probability_of_loss :=
          ((annual.filter (fun x => decide (0 < x))).length : ℝ) /
            (annual.length : ℝ)
        mean_loss_given_event :=
          if 0 < (annual.filter (fun x => decide (0 < x))).length then
            npMean (annual.filter (fun x => decide (0 < x)))
          else 0 } := by
  simp [calculateStatistics, h]

/-- Master characterization of a successful run (`n > 0`, well-formed
specs): the engine returns a result whose TEF samples come from the TEF
spec, whose rate sequence is the element-wise vulnerability scaling, whose
event counts are Poisson-primitive draws at the per-run rates, and whose
annual losses are the per-run `runLoss` outcomes; the statistics are those
of the produced arrays.  No constraint is placed on `vuln_prob` or
`secondary_loss_prob`. -/
theorem run_simulation_spec (rng : NpRandom) (n : ℕ)
    (tef : FAIRDistribution) (vuln : ℝ) (prim : FAIRDistribution)
    (sec : Option FAIRDistribution) (sp : ℝ) (pos : ℕ)
    (htef : sampleOk tef) (hprim : sampleOk prim)
    (hsec : ∀ sd ∈ sec, sampleOk sd) (hn : 0 < n) :
    ∃ tefs p1 annual stats p',
      tef.sample rng n pos = .ok (tefs, p1) ∧ tefs.length = n ∧
      run_simulation rng n tef vuln prim sec sp pos = .ok
        (⟨annual, tefs.map (· * vuln),
          (List.range n).map (fun i =>
            rng.poisson ((tefs.map (· * vuln)).getD i 0) (p1 + i)), tefs⟩,
          stats, p') ∧
      annual.length = n ∧
      (∀ i, i < n →
        ∃ q q', runLoss rng prim sec sp
          (((List.range n).map (fun i =>
            rng.poisson ((tefs.map (· * vuln)).getD i 0) (p1 + i))).getD i 0) q =
          .ok (annual.getD i 0, q')) ∧
      calculateStatistics annual (tefs.map (· * vuln)) = .ok stats := by
  obtain ⟨tefs, p1, htefs, hlen, -⟩ := sample_ok_spec tef rng n pos htef
  obtain ⟨annual, p2, hloop, hannlen, hall⟩ :=
    lossLoop_spec rng prim sec sp hprim hsec
      ((List.range n).map (fun i =>
        rng.poisson ((tefs.map (· * vuln)).getD i 0) (p1 + i))) (p1 + n)
  have hannlen' : annual.length = n := by simpa using hannlen
  have hne : annual ≠ [] := by
    intro hcon
    rw [hcon] at hannlen'
    simp at hannlen'
    omega
  obtain ⟨stats, hstats⟩ :
      ∃ stats, calculateStatistics annual (tefs.map (· * vuln)) = .ok stats :=
    ⟨_, calculateStatistics_ok annual (tefs.map (· * vuln)) hne⟩
  refine ⟨tefs, p1, annual, stats, p2, htefs, hlen, ?_, hannlen', ?_, hstats⟩
  · simp only [run_simulation, htefs, hloop, hstats]
  · intro i hi
    exact hall i (by simpa using hi)

/-- With `n_simulations = 0` the engine does not fail fast: sampling is
reached (an empty draw), the loop runs zero times, and the failure only
happens inside the statistics computation, as the `ValueError` that
`np.min` raises on a zero-size array. -/
theorem run_simulation_zero (rng : NpRandom) (tef : FAIRDistribution)
    (vuln : ℝ) (prim : FAIRDistribution) (sec : Option FAIRDistribution)
    (sp : ℝ) (pos : ℕ) (htef : sampleOk tef) :
    run_simulation rng 0 tef vuln prim sec sp pos =
      .error "ValueError: zero-size array to reduction operation minimum which has no identity" := by
  obtain ⟨l, p', htefs, hlen, hzero⟩ := sample_ok_spec tef rng 0 pos htef
  obtain ⟨rfl, rfl⟩ := hzero rfl
  simp only [run_simulation, htefs, List.range_zero, List.map_nil,
    lossLoop, calculateStatistics, List.isEmpty_nil, if_pos]

/-- Indexing a sorted list (with default) is monotone on in-range indices. -/
theorem sorted_getD_mono {ys : List ℝ} (hs : ys.Sorted (· ≤ ·)) {i j : ℕ}
    (hij : i ≤ j) (hj : j < ys.length) :
    ys.getD i 0 ≤ ys.getD j 0 := by
  have hi : i < ys.length := lt_of_le_of_lt hij hj
  rw [List.getD_eq_getElem ys 0 hi, List.getD_eq_getElem ys 0 hj]
  rcases lt_or_eq_of_le hij with h | h
  · have := hs.rel_get_of_lt (a := ⟨i, hi⟩) (b := ⟨j, hj⟩) (by simpa using h)
    simpa using this
  · subst h
    exact le_refl _

/-- Linear interpolation along a sorted list is monotone in the virtual
index, on the index range numpy uses. -/
theorem interpAt_mono {ys : List ℝ} (hs : ys.Sorted (· ≤ ·)) (hne : ys ≠ [])
    {v w : ℝ} (h0 : 0 ≤ v) (hvw : v ≤ w) (hw : w ≤ (ys.length : ℝ) - 1) :
    interpAt ys v ≤ interpAt ys w := by
  simp only [interpAt]
  obtain ⟨n, hn_def⟩ : ∃ k, ys.length = k := ⟨_, rfl⟩
  obtain ⟨i, hi_def⟩ : ∃ k, (⌊v⌋).toNat = k := ⟨_, rfl⟩
  obtain ⟨j, hj_def⟩ : ∃ k, (⌊w⌋).toNat = k := ⟨_, rfl⟩
  rw [hn_def, hi_def, hj_def]
  rw [hn_def] at hw
  have hn : 1 ≤ n := hn_def ▸ List.length_pos.mpr hne
  have h0w : 0 ≤ w := le_trans h0 hvw
  have hfv : (0 : ℤ) ≤ ⌊v⌋ := Int.floor_nonneg.mpr h0
  have hfw : (0 : ℤ) ≤ ⌊w⌋ := Int.floor_nonneg.mpr h0w
  have hiz : ((i : ℕ) : ℤ) = ⌊v⌋ := by omega
  have hjz : ((j : ℕ) : ℤ) = ⌊w⌋ := by omega
  have hiv : ((i : ℕ) : ℝ) ≤ v := by
    have h := Int.floor_le v
    rw [← hiz] at h
    exact_mod_cast h
  have hvi : v < ((i : ℕ) : ℝ) + 1 := by
    have h := Int.lt_floor_add_one v
    rw [← hiz] at h
    exact_mod_cast h
  have hjw : ((j : ℕ) : ℝ) ≤ w := by
    have h := Int.floor_le w
    rw [← hjz] at h
    exact_mod_cast h
  have hij : i ≤ j := by
    have := Int.floor_mono hvw
    omega
  have hjn : j ≤ n - 1 := by
    have hcast : ((n : ℝ) - 1) = (((n : ℤ) - 1 : ℤ) : ℝ) := by push_cast; ring
    have h2 : ⌊w⌋ ≤ (n : ℤ) - 1 :=
      calc ⌊w⌋ ≤ ⌊(n : ℝ) - 1⌋ := Int.floor_mono hw
        _ = (n : ℤ) - 1 := by rw [hcast, Int.floor_intCast]
    omega
  have hmini : min i (n - 1) = i := min_eq_left (le_trans hij hjn)
  have hminj : min j (n - 1) = j := min_eq_left hjn
  rw [hmini, hminj]
  have hlh1 : ys.getD i 0 ≤ ys.getD (min (i + 1) (n - 1)) 0 :=
    sorted_getD_mono hs (by omega) (by omega)
  have hlh2 : ys.getD j 0 ≤ ys.getD (min (j + 1) (n - 1)) 0 :=
    sorted_getD_mono hs (by omega) (by omega)
  rcases eq_or_lt_of_le hij with heq | hlt
  · subst heq
    nlinarith [mul_nonneg (sub_nonneg.mpr hvw) (sub_nonneg.mpr hlh1)]
  · have hA : ys.getD i 0 +
        (v - ((i : ℕ) : ℝ)) * (ys.getD (min (i + 1) (n - 1)) 0 - ys.getD i 0) ≤
        ys.getD (min (i + 1) (n - 1)) 0 := by
      nlinarith [mul_nonneg
        (by linarith : (0 : ℝ) ≤ 1 - (v - ((i : ℕ) : ℝ)))
        (by linarith : (0 : ℝ) ≤ ys.getD (min (i + 1) (n - 1)) 0 - ys.getD i 0)]
    have hB : ys.getD (min (i + 1) (n - 1)) 0 ≤ ys.getD j 0 :=
      sorted_getD_mono hs (by omega) (by omega)
    have hC : ys.getD j 0 ≤ ys.getD j 0 +
        (w - ((j : ℕ) : ℝ)) * (ys.getD (min (j + 1) (n - 1)) 0 - ys.getD j 0) := by
      nlinarith [mul_nonneg
        (by linarith : (0 : ℝ) ≤ w - ((j : ℕ) : ℝ))
        (by linarith : (0 : ℝ) ≤ ys.getD (min (j + 1) (n - 1)) 0 - ys.getD j 0)]
    linarith

/-- The modelled `np.percentile` is monotone in the percentile rank. -/
theorem npPercentile_mono {xs : List ℝ} (hne : xs ≠ []) {q1 q2 : ℝ}
    (h0 : 0 ≤ q1) (h12 : q1 ≤ q2) (h2 : q2 ≤ 100) :
    npPercentile xs q1 ≤ npPercentile xs q2 := by
  have hsorted : (sortedOf xs).Sorted (· ≤ ·) :=
    List.sorted_insertionSort (· ≤ ·) xs
  have hlen : (sortedOf xs).length = xs.length :=
    List.length_insertionSort (· ≤ ·) xs
  have hne' : sortedOf xs ≠ [] := by
    intro hcon
    apply hne
    have := congrArg List.length hcon
    rw [hlen] at this
    simpa using List.length_eq_zero.mp this
  have hpos : (0 : ℝ) ≤ (xs.length : ℝ) - 1 := by
    have : 1 ≤ xs.length := List.length_pos.mpr hne
    have : (1 : ℝ) ≤ (xs.length : ℝ) := by exact_mod_cast this
    linarith
  simp only [npPercentile]
  apply interpAt_mono hsorted hne'
  · exact mul_nonneg (by linarith) hpos
  · apply mul_le_mul_of_nonneg_right _ hpos
    linarith
  · rw [hlen]
    have : q2 / 100 ≤ 1 := by linarith
    nlinarith

/-- The modelled percentile of a one-element array is that element, for
every rank. -/
theorem npPercentile_singleton (x q : ℝ) : npPercentile [x] q = x := by
  simp [npPercentile, sortedOf, interpAt, List.insertionSort, List.orderedInsert]

/-- The modelled mean of a one-element array is that element. -/
theorem npMean_singleton (x : ℝ) : npMean [x] = x := by
  simp [npMean]

/-- Full evaluation of the statistics of a one-run result. -/
theorem calculateStatistics_singleton (x y : ℝ) :
    calculateStatistics [x] [y] = .ok
      ⟨x, x, 0, x, x, x, x, x, x, x, x, x, y, y,
        if 0 < x then 1 else 0, if 0 < x then x else 0⟩ := by
  by_cases hx : 0 < x
  · simp [calculateStatistics, npMean_singleton, npPercentile_singleton,
      npStd, npMean, npMinList, npMaxList, hx]
  · simp [calculateStatistics, npMean_singleton, npPercentile_singleton,
      npStd, npMean, npMinList, npMaxList, hx]

/-- `uniSpec` is a well-formed spec. -/
theorem sampleOk_uniSpec : sampleOk uniSpec :=
  Or.inr (Or.inr (Or.inl ⟨rfl, 1, rfl⟩))

/-- `tefOneSpec` is a well-formed spec. -/
theorem sampleOk_tefOneSpec : sampleOk tefOneSpec :=
  Or.inr (Or.inr (Or.inl ⟨rfl, 1, rfl⟩))

/-- `primZeroSpec` is a well-formed spec. -/
theorem sampleOk_primZeroSpec : sampleOk primZeroSpec :=
  Or.inl ⟨rfl, 0, 0, rfl, rfl⟩

/-- `pertSpec` is a well-formed spec. -/
theorem sampleOk_pertSpec : sampleOk pertSpec :=
  Or.inl ⟨rfl, 2, 3, rfl, rfl⟩

/-- C1, counterexample: with a vulnerability probability of 1.5 — outside
[0,1] — and an otherwise well-formed configuration, `run_simulation` does
not fail at all: it runs to completion and returns a full result, so the
claimed fail-fast `InvalidParameter` rejection does not happen. -/
theorem c1_counterexample :
    run_simulation zeroRng 1 uniSpec (3 / 2) uniSpec none 0 0 =
      .ok (⟨[0], [0], [0], [0]⟩, zeroStats, 2) := by
  simp [run_simulation, FAIRDistribution.sample, uniSpec, zeroRng,
    lossLoop, runLoss, calculateStatistics_singleton, zeroStats]

/-- C1 (amended): the engine performs no fail-fast configuration
validation of its own.  The secondary-loss probability is never checked
(any real value is accepted), and a vulnerability probability outside
[0,1] is not rejected: whenever the computed per-run rates
`tef_sample * vuln_prob` are all non-negative — in particular for
`vuln_prob = 1.5` with non-negative TEF samples — the run completes and
returns a full result.  `n_simulations = 0` is not rejected before
sampling either: TEF sampling is reached and the run fails only inside the
statistics computation, with the `ValueError` that `np.min` raises on a
zero-size array — never with an `InvalidParameter` rejection.

The non-negative-rate hypothesis scopes the completion assertion to the
domain where the total `NpRandom.poisson` coincides with
`np.random.poisson` (which raises `ValueError("lam < 0")` on a negative
rate — a late numpy error after TEF sampling, not a fail-fast rejection,
but outside this theorem's domain and not asserted here). -/
theorem c1_no_validation (rng : NpRandom) (tef prim : FAIRDistribution)
    (sec : Option FAIRDistribution) (vuln sp : ℝ) (pos : ℕ)
    (htef : sampleOk tef) (hprim : sampleOk prim)
    (hsec : ∀ sd ∈ sec, sampleOk sd) :
    (∀ n, 0 < n → ∀ tefs p1,
      tef.sample rng n pos = .ok (tefs, p1) →
      (∀ x ∈ tefs, 0 ≤ x * vuln) →
      ∃ r, run_simulation rng n tef vuln prim sec sp pos = .ok r) ∧
    run_simulation rng 0 tef vuln prim sec sp pos =
      .error "ValueError: zero-size array to reduction operation minimum which has no identity" := by
  constructor
  · intro n hn tefs p1 htefs hrates
    obtain ⟨tefs', p1', annual, stats, p', -, -, hrun, -⟩ :=
      run_simulation_spec rng n tef vuln prim sec sp pos htef hprim hsec hn
    exact ⟨_, hrun⟩
  · exact run_simulation_zero rng tef vuln prim sec sp pos htef

/-- C1, witness: the amended no-validation theorem applied at a concrete
configuration with `vuln_prob = 1.5` and `secondary_loss_prob = -1`,
whose single TEF sample is 0, so every computed rate (0 * 1.5 = 0) is
non-negative. -/
theorem c1_witness :
    sampleOk uniSpec ∧
    uniSpec.sample zeroRng 1 0 = .ok ([0], 1) ∧
    (∀ x ∈ [(0 : ℝ)], 0 ≤ x * (3 / 2)) ∧
    (∃ r, run_simulation zeroRng 1 uniSpec (3 / 2) uniSpec none (-1) 0 = .ok r) ∧
    run_simulation zeroRng 0 uniSpec (3 / 2) uniSpec none (-1) 0 =
      .error "ValueError: zero-size array to reduction operation minimum which has no identity" := by
  have hsample : uniSpec.sample zeroRng 1 0 = .ok ([0], 1) := by
    simp [FAIRDistribution.sample, uniSpec, zeroRng, List.range_succ]
  have hrates : ∀ x ∈ [(0 : ℝ)], 0 ≤ x * (3 / 2) := by
    intro x hx
    simp only [List.mem_singleton] at hx
    simp [hx]
  have h := c1_no_validation zeroRng uniSpec uniSpec none (3 / 2) (-1) 0
    sampleOk_uniSpec sampleOk_uniSpec (by simp)
  exact ⟨sampleOk_uniSpec, hsample, hrates,
    h.1 1 Nat.one_pos [0] 1 hsample hrates, h.2⟩

/-- C2: for every valid configuration the engine realizes the FAIR
two-level stochastic process: the per-run loss-event rate is the
element-wise product of the TEF sample with the vulnerability probability;
each run's realized event count is a Poisson-primitive draw whose mean is
that run's rate; a run with `k > 0` events has annual loss equal to the sum
of `k` primary-loss draws, plus — exactly when a secondary spec with
positive probability is configured — the sum of those of `k`
secondary-loss draws whose independent Bernoulli(`secondary_prob`) gate
(`np.random.random() < prob`) succeeded; and a run with `k = 0` has annual
loss exactly 0. -/
theorem c2_fair_two_level_process (rng : NpRandom) (n : ℕ)
    (tef : FAIRDistribution) (vuln : ℝ) (prim : FAIRDistribution)
    (sec : Option FAIRDistribution) (sp : ℝ) (pos : ℕ)
    (htef : sampleOk tef) (hprim : sampleOk prim)
    (hsec : ∀ sd ∈ sec, sampleOk sd) (hn : 0 < n) :
    ∃ res stats p',
      run_simulation rng n tef vuln prim sec sp pos = .ok (res, stats, p') ∧
      res.lef_samples = res.tef_samples.map (· * vuln) ∧
      (∃ p1, res.actual_events = (List.range n).map (fun i =>
        rng.poisson (res.lef_samples.getD i 0) (p1 + i))) ∧
      (∀ i, i < n → res.actual_events.getD i 0 = 0 →
        res.annual_losses.getD i 0 = 0) ∧
      (∀ i, i < n → 0 < res.actual_events.getD i 0 →
        ∃ q ps p1,
          prim.sample rng (res.actual_events.getD i 0) q = .ok (ps, p1) ∧
          ps.length = res.actual_events.getD i 0 ∧
          ((sec = none ∨ sp ≤ 0) → res.annual_losses.getD i 0 = ps.sum) ∧
          (∀ sd, sec = some sd → 0 < sp →
            ∃ ss p2,
              sd.sample rng (res.actual_events.getD i 0)
                (p1 + res.actual_events.getD i 0) = .ok (ss, p2) ∧
              ss.length = res.actual_events.getD i 0 ∧
              res.annual_losses.getD i 0 = ps.sum +
                (secondaryWhere rng sp p1
                  (res.actual_events.getD i 0) ss).sum)) := by
  obtain ⟨tefs, p1, annual, stats, p', htefs, htlen, hrun, halen, hall, hstats⟩ :=
    run_simulation_spec rng n tef vuln prim sec sp pos htef hprim hsec hn
  refine ⟨_, stats, p', hrun, rfl, ⟨p1, rfl⟩, ?_, ?_⟩
  · intro i hi h0
    obtain ⟨q, q', hq⟩ := hall i hi
    rw [h0] at hq
    simp only [runLoss, lt_irrefl, if_false] at hq
    have := (Prod.mk.injEq .. ▸ Except.ok.inj hq).1
    exact this.symm
  · intro i hi hk
    obtain ⟨q, q', hq⟩ := hall i hi
    obtain ⟨loss, p'', hrl, -, hposk⟩ :=
      runLoss_spec rng prim sec sp _ q hprim hsec
    rw [hrl] at hq
    obtain ⟨hloss, -⟩ := Prod.mk.injEq .. ▸ (Except.ok.inj hq)
    obtain ⟨ps, pp1, hps, hpslen, hnone, hsome⟩ := hposk hk
    refine ⟨q, ps, pp1, hps, hpslen, ?_, ?_⟩
    · intro h
      rw [← hloss, (hnone h).1]
    · intro sd hsd hsp
      obtain ⟨ss, p2, hss, hsslen, hl, -⟩ := hsome sd hsd hsp
      exact ⟨ss, p2, hss, hsslen, by rw [← hloss, hl]⟩

/-- C2, witness: the two-level-process theorem applied to a concrete
one-run configuration. -/
theorem c2_witness :
    sampleOk uniSpec ∧ 0 < 1 ∧
    (∃ res stats p',
      run_simulation zeroRng 1 uniSpec 1 uniSpec none 0 0 = .ok (res, stats, p') ∧
      res.lef_samples = res.tef_samples.map (· * 1) ∧
      (∃ p1, res.actual_events = (List.range 1).map (fun i =>
        zeroRng.poisson (res.lef_samples.getD i 0) (p1 + i))) ∧
      (∀ i, i < 1 → res.actual_events.getD i 0 = 0 →
        res.annual_losses.getD i 0 = 0) ∧
      (∀ i, i < 1 → 0 < res.actual_events.getD i 0 →
        ∃ q ps p1,
          uniSpec.sample zeroRng (res.actual_events.getD i 0) q = .ok (ps, p1) ∧
          ps.length = res.actual_events.getD i 0 ∧
          (((none : Option FAIRDistribution) = none ∨ (0 : ℝ) ≤ 0) →
            res.annual_losses.getD i 0 = ps.sum) ∧
          (∀ sd, (none : Option FAIRDistribution) = some sd → (0 : ℝ) < 0 →
            ∃ ss p2,
              sd.sample zeroRng (res.actual_events.getD i 0)
                (p1 + res.actual_events.getD i 0) = .ok (ss, p2) ∧
              ss.length = res.actual_events.getD i 0 ∧
              res.annual_losses.getD i 0 = ps.sum +
                (secondaryWhere zeroRng 0 p1
                  (res.actual_events.getD i 0) ss).sum))) :=
  ⟨sampleOk_uniSpec, Nat.one_pos,
    c2_fair_two_level_process zeroRng 1 uniSpec 1 uniSpec none 0 0
      sampleOk_uniSpec sampleOk_uniSpec (by simp) Nat.one_pos⟩

/-- C3: PERT sampling.  For a PERT spec (mode and max present, as the
source dereferences both), `sample` returns `count` exact copies of `min`
in the degenerate case `max == min`; otherwise it draws `count`
Beta(α, β) samples with α = 1 + 4(mode−min)/(max−min),
β = 1 + 4(max−mode)/(max−min) and rescales them affinely from [0,1] to
[min, max]. -/
theorem c3_pert_sampling (rng : NpRandom) (d : FAIRDistribution)
    (count pos : ℕ) (mo mx : ℝ)
    (ht : d.dist_type = "pert") (hmo : d.mode_val = some mo)
    (hmx : d.max_val = some mx) :
    (mx = d.min_val →
      d.sample rng count pos = .ok (List.replicate count d.min_val, pos)) ∧
    (mx ≠ d.min_val →
      d.sample rng count pos = .ok ((List.range count).map (fun i =>
        d.min_val +
          rng.beta (1 + 4 * (mo - d.min_val) / (mx - d.min_val))
            (1 + 4 * (mx - mo) / (mx - d.min_val)) (pos + i) *
          (mx - d.min_val)), pos + count)) := by
  constructor
  · intro hdeg
    simp [FAIRDistribution.sample, ht, hmo, hmx, hdeg]
  · intro hdeg
    simp [FAIRDistribution.sample, ht, hmo, hmx, hdeg]

/-- C3, witness: the PERT theorem applied to the concrete specs
PERT(1,2,3) (non-degenerate branch) and PERT(5,5,5) (degenerate branch). -/
theorem c3_witness :
    pertSpec.dist_type = "pert" ∧ pertSpec.mode_val = some 2 ∧
    pertSpec.max_val = some 3 ∧
    ((3 : ℝ) ≠ pertSpec.min_val ∧
      pertSpec.sample zeroRng 4 0 = .ok ((List.range 4).map (fun i =>
        pertSpec.min_val +
          zeroRng.beta (1 + 4 * (2 - pertSpec.min_val) / (3 - pertSpec.min_val))
            (1 + 4 * (3 - 2) / (3 - pertSpec.min_val)) (0 + i) *
          (3 - pertSpec.min_val)), 0 + 4)) ∧
    ((5 : ℝ) = pertDegenerateSpec.min_val ∧
      pertDegenerateSpec.sample zeroRng 4 0 =
        .ok (List.replicate 4 pertDegenerateSpec.min_val, 0)) := by
  refine ⟨rfl, rfl, rfl, ⟨by norm_num [pertSpec], ?_⟩, ⟨by norm_num [pertDegenerateSpec], ?_⟩⟩
  · exact (c3_pert_sampling zeroRng pertSpec 4 0 2 3 rfl rfl rfl).2
      (by norm_num [pertSpec])
  · exact (c3_pert_sampling zeroRng pertDegenerateSpec 4 0 5 5 rfl rfl rfl).1
      (by norm_num [pertDegenerateSpec])

/-- C4: lognormal parameter derivation.  With `mean` and `std` both
supplied (and a nonzero mean, so that the logarithm argument is positive
and the real-log model coincides with `np.log`), the underlying normal
parameters are the moment-matching μ = ln(mean²/√(std²+mean²)),
σ = √(ln(1+std²/mean²)); otherwise (here: `mean` absent, positive range
parameters) μ = ln(mode) and σ = (ln(max)−ln(min))/4; `count` draws are
then taken from the lognormal primitive with those parameters. -/
theorem c4_lognormal_parameters (rng : NpRandom) (count pos : ℕ)
    (d1 d2 : FAIRDistribution) (m s mo mx : ℝ)
    (h1t : d1.dist_type = "lognormal") (h1m : d1.mean = some m)
    (h1s : d1.std = some s) (h1pos : m ≠ 0)
    (h2t : d2.dist_type = "lognormal") (h2m : d2.mean = none)
    (h2mo : d2.mode_val = some mo) (h2mx : d2.max_val = some mx)
    (h2pos : 0 < mo ∧ 0 < mx ∧ 0 < d2.min_val) :
    d1.sample rng count pos = .ok ((List.range count).map (fun i =>
      rng.lognormal (Real.log (m ^ 2 / Real.sqrt (s ^ 2 + m ^ 2)))
        (Real.sqrt (Real.log (1 + s ^ 2 / m ^ 2))) (pos + i)), pos + count) ∧
    d2.sample rng count pos = .ok ((List.range count).map (fun i =>
      rng.lognormal (Real.log mo)
        ((Real.log mx - Real.log d2.min_val) / 4) (pos + i)), pos + count) := by
  constructor
  · simp [FAIRDistribution.sample, h1t, h1m, h1s]
  · simp [FAIRDistribution.sample, h2t, h2m, h2mo, h2mx]

/-- C4, witness: the lognormal-parameter theorem applied to
`lnMeanStdSpec` (mean 5, std 2) and `lnRangeSpec` (range 1/2/4). -/
theorem c4_witness :
    lnMeanStdSpec.dist_type = "lognormal" ∧ lnMeanStdSpec.mean = some 5 ∧
    lnMeanStdSpec.std = some 2 ∧ (5 : ℝ) ≠ 0 ∧
    lnRangeSpec.dist_type = "lognormal" ∧ lnRangeSpec.mean = none ∧
    lnRangeSpec.mode_val = some 2 ∧ lnRangeSpec.max_val = some 4 ∧
    ((0 : ℝ) < 2 ∧ (0 : ℝ) < 4 ∧ (0 : ℝ) < lnRangeSpec.min_val) ∧
    (lnMeanStdSpec.sample zeroRng 3 0 = .ok ((List.range 3).map (fun i =>
      zeroRng.lognormal (Real.log ((5 : ℝ) ^ 2 / Real.sqrt ((2 : ℝ) ^ 2 + (5 : ℝ) ^ 2)))
        (Real.sqrt (Real.log (1 + (2 : ℝ) ^ 2 / (5 : ℝ) ^ 2))) (0 + i)), 0 + 3) ∧
    lnRangeSpec.sample zeroRng 3 0 = .ok ((List.range 3).map (fun i =>
      zeroRng.lognormal (Real.log (2 : ℝ))
        ((Real.log (4 : ℝ) - Real.log lnRangeSpec.min_val) / 4) (0 + i)), 0 + 3)) := by
  refine ⟨rfl, rfl, rfl, by norm_num, rfl, rfl, rfl, rfl,
    ⟨by norm_num, by norm_num, by norm_num [lnRangeSpec]⟩, ?_⟩
  exact c4_lognormal_parameters zeroRng 3 0 lnMeanStdSpec lnRangeSpec 5 2 2 4
    rfl rfl rfl (by norm_num) rfl rfl rfl rfl
    ⟨by norm_num, by norm_num, by norm_num [lnRangeSpec]⟩

/-- C5 (amended): `probability_of_loss` equals (count of runs with annual
loss > 0) / `n_simulations` and lies in [0,1], and it equals 0 whenever
every run's realized event count is 0.  The converse direction of the
original claim ("equals 0 only when every count is 0") is refuted by the
counterexample: a run can realize events whose sampled losses are all 0. -/
theorem c5_probability_of_loss (rng : NpRandom) (n : ℕ)
    (tef : FAIRDistribution) (vuln : ℝ) (prim : FAIRDistribution)
    (sec : Option FAIRDistribution) (sp : ℝ) (pos : ℕ)
    (htef : sampleOk tef) (hprim : sampleOk prim)
    (hsec : ∀ sd ∈ sec, sampleOk sd) (hn : 0 < n) :
    ∃ res stats p',
      run_simulation rng n tef vuln prim sec sp pos = .ok (res, stats, p') ∧
      stats.probability_of_loss =
        ((res.annual_losses.filter (fun x => decide (0 < x))).length : ℝ) / (n : ℝ) ∧
      0 ≤ stats.probability_of_loss ∧ stats.probability_of_loss ≤ 1 ∧
      ((∀ k ∈ res.actual_events, k = 0) → stats.probability_of_loss = 0) := by
  obtain ⟨tefs, p1, annual, stats, p', htefs, htlen, hrun, halen, hall, hstats⟩ :=
    run_simulation_spec rng n tef vuln prim sec sp pos htef hprim hsec hn
  have hne : annual ≠ [] := by
    intro hcon
    rw [hcon] at halen
    simp at halen
    omega
  rw [calculateStatistics_ok annual (tefs.map (· * vuln)) hne] at hstats
  obtain rfl := Except.ok.inj hstats
  refine ⟨_, _, p', hrun, ?_, ?_, ?_, ?_⟩
  · show ((annual.filter (fun x => decide (0 < x))).length : ℝ) /
      (annual.length : ℝ) = _
    rw [halen]
  · show (0 : ℝ) ≤ ((annual.filter (fun x => decide (0 < x))).length : ℝ) /
      (annual.length : ℝ)
    positivity
  · show ((annual.filter (fun x => decide (0 < x))).length : ℝ) /
      (annual.length : ℝ) ≤ 1
    apply div_le_one_of_le₀
    · exact_mod_cast List.length_filter_le _ annual
    · positivity
  · intro hz
    show ((annual.filter (fun x => decide (0 < x))).length : ℝ) /
      (annual.length : ℝ) = 0
    have hfilter : annual.filter (fun x => decide (0 < x)) = [] := by
      rw [List.filter_eq_nil_iff]
      intro a ha
      obtain ⟨i, hi, hEq⟩ := List.getElem_of_mem ha
      have hin : i < n := by rw [← halen]; exact hi
      have hevlen : ((List.range n).map (fun i =>
          rng.poisson ((tefs.map (· * vuln)).getD i 0) (p1 + i))).length = n := by
        simp
      have hmem : ((List.range n).map (fun i =>
          rng.poisson ((tefs.map (· * vuln)).getD i 0) (p1 + i))).getD i 0 ∈
          (List.range n).map (fun i =>
            rng.poisson ((tefs.map (· * vuln)).getD i 0) (p1 + i)) := by
        rw [List.getD_eq_getElem _ _ (by rw [hevlen]; exact hin)]
        exact List.getElem_mem _
      have hzero := hz _ hmem
      obtain ⟨q, q', hq⟩ := hall i hin
      rw [hzero] at hq
      simp only [runLoss, lt_irrefl, if_false] at hq
      have h0 := (Prod.mk.injEq .. ▸ Except.ok.inj hq).1
      have : a = 0 := by
        rw [← hEq, ← List.getD_eq_getElem annual 0 hi, ← h0]
      rw [this]
      simp
    rw [hfilter]
    simp

/-- C5, counterexample: a configuration in which the single run realizes
one loss event but the (degenerate) loss distribution samples 0, so
`probability_of_loss = 0` while not every realized event count is 0 —
refuting the "exactly when" direction of the claim. -/
theorem c5_counterexample :
    run_simulation cexRng 1 tefOneSpec 1 primZeroSpec none 0 0 =
      .ok (⟨[0], [1], [1], [1]⟩, cexStats, 2) ∧
    cexStats.probability_of_loss = 0 ∧ ¬ (∀ k ∈ [(1 : ℕ)], k = 0) := by
  refine ⟨?_, rfl, by simp⟩
  simp [run_simulation, FAIRDistribution.sample, tefOneSpec, primZeroSpec,
    cexRng, lossLoop, runLoss, calculateStatistics_singleton, cexStats]

/-- C5, witness: the amended probability-of-loss theorem applied to a
concrete one-run configuration. -/
theorem c5_witness :
    sampleOk uniSpec ∧ 0 < 1 ∧
    (∃ res stats p',
      run_simulation zeroRng 1 uniSpec 1 uniSpec none 0 0 = .ok (res, stats, p') ∧
      stats.probability_of_loss =
        ((res.annual_losses.filter (fun x => decide (0 < x))).length : ℝ) / (1 : ℝ) ∧
      0 ≤ stats.probability_of_loss ∧ stats.probability_of_loss ≤ 1 ∧
      ((∀ k ∈ res.actual_events, k = 0) → stats.probability_of_loss = 0)) := by
  refine ⟨sampleOk_uniSpec, Nat.one_pos, ?_⟩
  have h := c5_probability_of_loss zeroRng 1 uniSpec 1 uniSpec none 0 0
    sampleOk_uniSpec sampleOk_uniSpec (by simp) Nat.one_pos
  exact_mod_cast h

/-- C6: the seven percentile fields of any successfully computed
Statistics are non-decreasing with percentile rank. -/
theorem c6_percentiles_monotone (annual lef : List ℝ) (s : Statistics)
    (h : calculateStatistics annual lef = .ok s) :
    s.p10 ≤ s.p25 ∧ s.p25 ≤ s.p50 ∧ s.p50 ≤ s.p75 ∧ s.p75 ≤ s.p90 ∧
    s.p90 ≤ s.p95 ∧ s.p95 ≤ s.p99 := by
  have hne : annual ≠ [] := by
    intro hcon
    rw [hcon] at h
    simp [calculateStatistics] at h
  rw [calculateStatistics_ok annual lef hne] at h
  obtain rfl := Except.ok.inj h
  exact ⟨npPercentile_mono hne (by norm_num) (by norm_num) (by norm_num),
    npPercentile_mono hne (by norm_num) (by norm_num) (by norm_num),
    npPercentile_mono hne (by norm_num) (by norm_num) (by norm_num),
    npPercentile_mono hne (by norm_num) (by norm_num) (by norm_num),
    npPercentile_mono hne (by norm_num) (by norm_num) (by norm_num),
    npPercentile_mono hne (by norm_num) (by norm_num) (by norm_num)⟩

/-- C6, witness: the percentile-monotonicity theorem applied to the
concrete one-run statistics. -/
theorem c6_witness :
    calculateStatistics [0] [0] = .ok zeroStats ∧
    (zeroStats.p10 ≤ zeroStats.p25 ∧ zeroStats.p25 ≤ zeroStats.p50 ∧
      zeroStats.p50 ≤ zeroStats.p75 ∧ zeroStats.p75 ≤ zeroStats.p90 ∧
      zeroStats.p90 ≤ zeroStats.p95 ∧ zeroStats.p95 ≤ zeroStats.p99) := by
  have hcalc : calculateStatistics [0] [0] = .ok zeroStats := by
    simp [calculateStatistics_singleton, zeroStats]
  exact ⟨hcalc, c6_percentiles_monotone [0] [0] zeroStats hcalc⟩

/-- C7, counterexample: with the min/mode/max lognormal parametrization
and a negative mode, `sample` raises no error at all — it returns a full
sample array — refuting the claim that it fails with a DomainError. -/
theorem c7_counterexample :
    lnBadSpec.sample zeroRng 3 0 = .ok ([0, 0, 0], 3) := by
  simp [FAIRDistribution.sample, lnBadSpec, zeroRng, List.range_succ]

/-- C7 (amended): in the min/mode/max lognormal parametrization with a
non-positive min or mode, `sample` does not fail — it returns normally —
while the logarithm is evaluated at a non-positive argument, whose IEEE
result is non-real (NaN for negative, -inf for zero; `npLog` returns
`none` there), silently propagated instead of a DomainError. -/
theorem c7_no_domain_error (rng : NpRandom) (d : FAIRDistribution)
    (count pos : ℕ) (mo mx : ℝ)
    (ht : d.dist_type = "lognormal") (hmean : d.mean = none)
    (hmo : d.mode_val = some mo) (hmx : d.max_val = some mx)
    (hbad : mo ≤ 0 ∨ d.min_val ≤ 0) :
    (∃ l p', d.sample rng count pos = .ok (l, p')) ∧
    (npLog mo = none ∨ npLog d.min_val = none) := by
  constructor
  · simp only [FAIRDistribution.sample, ht, hmean, hmo, hmx, reduceIte]
    exact ⟨_, _, rfl⟩
  · rcases hbad with h | h
    · exact Or.inl (by simp [npLog, not_lt.mpr h])
    · exact Or.inr (by simp [npLog, not_lt.mpr h])

/-- C7, witness: the amended no-DomainError theorem applied to the
concrete spec with mode -1. -/
theorem c7_witness :
    lnBadSpec.dist_type = "lognormal" ∧ lnBadSpec.mean = none ∧
    lnBadSpec.mode_val = some (-1) ∧ lnBadSpec.max_val = some 2 ∧
    ((-1 : ℝ) ≤ 0 ∨ lnBadSpec.min_val ≤ 0) ∧
    ((∃ l p', lnBadSpec.sample zeroRng 3 0 = .ok (l, p')) ∧
      (npLog (-1) = none ∨ npLog lnBadSpec.min_val = none)) :=
  ⟨rfl, rfl, rfl, rfl, Or.inl (by norm_num),
    c7_no_domain_error zeroRng lnBadSpec 3 0 (-1) 2 rfl rfl rfl rfl
      (Or.inl (by norm_num))⟩

/-- C8: an unsupported distribution kind makes `sample` fail with the
`ValueError` whose message names the unsupported kind. -/
theorem c8_unknown_kind (rng : NpRandom) (d : FAIRDistribution)
    (count pos : ℕ)
    (h1 : d.dist_type ≠ "pert") (h2 : d.dist_type ≠ "lognormal")
    (h3 : d.dist_type ≠ "uniform") (h4 : d.dist_type ≠ "triangular") :
    d.sample rng count pos =
      .error ("Unknown distribution type: " ++ d.dist_type) := by
  simp [FAIRDistribution.sample, h1, h2, h3, h4]

/-- C8, witness: the unknown-kind theorem applied to the concrete
`gamma` spec; the error message ends with the offending kind. -/
theorem c8_witness :
    gammaSpec.dist_type ≠ "pert" ∧ gammaSpec.dist_type ≠ "lognormal" ∧
    gammaSpec.dist_type ≠ "uniform" ∧ gammaSpec.dist_type ≠ "triangular" ∧
    gammaSpec.sample zeroRng 5 0 =
      .error ("Unknown distribution type: " ++ gammaSpec.dist_type) :=
  ⟨by decide, by decide, by decide, by decide,
    c8_unknown_kind zeroRng gammaSpec 5 0
      (by decide) (by decide) (by decide) (by decide)⟩

/-- C9: for every valid configuration the four result sequences — annual
losses, loss-event rates, realized event counts, TEF samples — all have
length exactly `n_simulations`. -/
theorem c9_result_lengths (rng : NpRandom) (n : ℕ)
    (tef : FAIRDistribution) (vuln : ℝ) (prim : FAIRDistribution)
    (sec : Option FAIRDistribution) (sp : ℝ) (pos : ℕ)
    (htef : sampleOk tef) (hprim : sampleOk prim)
    (hsec : ∀ sd ∈ sec, sampleOk sd) (hn : 0 < n) :
    ∃ res stats p',
      run_simulation rng n tef vuln prim sec sp pos = .ok (res, stats, p') ∧
      res.annual_losses.length = n ∧ res.lef_samples.length = n ∧
      res.actual_events.length = n ∧ res.tef_samples.length = n := by
  obtain ⟨tefs, p1, annual, stats, p', htefs, htlen, hrun, halen, -, -⟩ :=
    run_simulation_spec rng n tef vuln prim sec sp pos htef hprim hsec hn
  exact ⟨_, stats, p', hrun, halen, by simp [htlen], by simp, htlen⟩

/-- C9, witness: the result-length theorem applied to a concrete two-run
configuration. -/
theorem c9_witness :
    sampleOk pertSpec ∧ sampleOk uniSpec ∧ 0 < 2 ∧
    (∃ res stats p',
      run_simulation zeroRng 2 pertSpec 1 uniSpec (some uniSpec) 1 0 =
        .ok (res, stats, p') ∧
      res.annual_losses.length = 2 ∧ res.lef_samples.length = 2 ∧
      res.actual_events.length = 2 ∧ res.tef_samples.length = 2) :=
  ⟨sampleOk_pertSpec, sampleOk_uniSpec, by omega,
    c9_result_lengths zeroRng 2 pertSpec 1 uniSpec (some uniSpec) 1 0
      sampleOk_pertSpec sampleOk_uniSpec
      (by intro sd hsd; rw [Option.mem_some_iff] at hsd; rw [← hsd]; exact sampleOk_uniSpec)
      (by omega)⟩

/-- C10: when `mean` and `std` are both supplied to a lognormal spec, the
sampler's output is a function of those two fields only: two lognormal
specs agreeing on `mean` and `std` produce identical output (values and
stream-position advance) under the same random source at the same stream
position, whatever their `min_val`, `mode_val`, `max_val`. -/
theorem c10_lognormal_ignores_range (rng : NpRandom) (count pos : ℕ)
    (d1 d2 : FAIRDistribution) (m s : ℝ)
    (h1t : d1.dist_type = "lognormal") (h2t : d2.dist_type = "lognormal")
    (h1m : d1.mean = some m) (h2m : d2.mean = some m)
    (h1s : d1.std = some s) (h2s : d2.std = some s) :
    d1.sample rng count pos = d2.sample rng count pos := by
  simp [FAIRDistribution.sample, h1t, h2t, h1m, h2m, h1s, h2s]

/-- C10, witness: the range-independence theorem applied to the two
concrete specs sharing mean 5 / std 2 but with ranges 1/2/3 and 10/20/30. -/
theorem c10_witness :
    lnMeanStdSpec.dist_type = "lognormal" ∧
    lnMeanStdSpec2.dist_type = "lognormal" ∧
    lnMeanStdSpec.mean = some 5 ∧ lnMeanStdSpec2.mean = some 5 ∧
    lnMeanStdSpec.std = some 2 ∧ lnMeanStdSpec2.std = some 2 ∧
    lnMeanStdSpec.min_val ≠ lnMeanStdSpec2.min_val ∧
    lnMeanStdSpec.sample zeroRng 7 0 = lnMeanStdSpec2.sample zeroRng 7 0 :=
  ⟨rfl, rfl, rfl, rfl, rfl, rfl, by norm_num [lnMeanStdSpec, lnMeanStdSpec2],
    c10_lognormal_ignores_range zeroRng 7 0 lnMeanStdSpec lnMeanStdSpec2 5 2
      rfl rfl rfl rfl rfl rfl⟩
